import Mathlib

/-!
Shallow embedding of the Shopmaster point-of-sale core.

Sources:
* `src/unnamed/part_000...` (the POS component): cart operations `addToCart`,
  `updateQuantity`, `updateQuantityExact`, `updateDiscount`, `removeFromCart`,
  the total computation `getDiscountedPrice` / `itemsTotal` / `finalTotal`,
  and the checkout handler `handleCheckout`.
* `src/services/storageService.ts`: the stock-decrement loop of `createSale`.

Modelling conventions:
* JavaScript numbers are modelled as `ℚ` for monetary values and discounts,
  and as `ℤ` for quantities and stock (quantity inputs go through `parseInt`,
  stock values are integers in the catalog).
* Presentation-only fields (`shopId`, `category`, `minStockLevel`, `sku`,
  `brand`, `formula`) do not influence any modelled operation and are omitted
  from the record types.
* A `parseInt` result is an `Option ℤ` (`none` for `NaN`).
* The string content of the two numeric fee fields is modelled by `FeeInput`:
  the empty string (`Number('') = 0`), a non-numeric string
  (`Number(s) = NaN`, and `NaN || 0 = 0`), or a string parsing to a rational.
* The two awaited external calls of `handleCheckout` (`onCompleteSale` and
  `generatePDF`) are modelled by two Boolean outcome parameters; the result
  records which calls were made, which messages were emitted, and the final
  component state.
-/

/-- Catalog product, from `Product` in `src/types.ts` (presentation-only
fields omitted). -/
structure Product where
  id : String
  name : String
  price : ℚ
  costPrice : ℚ
  stock : ℤ
  deriving DecidableEq

/-- Cart line, from `CartItem` in `src/types.ts`: a product together with
`quantity`, `discount` and `isService`.  The optional `discount` field is
always materialised (the component writes `discount: 0` on creation), so it
is total here. -/
structure CartItem where
  id : String
  name : String
  price : ℚ
  costPrice : ℚ
  stock : ℤ
  quantity : ℤ
  discount : ℚ
  isService : Bool
  deriving DecidableEq

/-- The cart line built by `addToCart` for a product not yet in the cart:
`{ ...product, quantity: 1, discount: 0 }` (no `isService` field, i.e.
`undefined`, modelled as `false`). -/
def mkCartItem (p : Product) : CartItem :=
  { id := p.id, name := p.name, price := p.price, costPrice := p.costPrice,
    stock := p.stock, quantity := 1, discount := 0, isService := false }

/-- `addToCart(product)`: if a line with the product's id exists, bump its
quantity when it is below the product's stock, otherwise alert
(`'Not enough stock!'`) and leave the cart unchanged; if no such line
exists, append a fresh line with quantity 1 and discount 0.
Returns the new cart and whether the stock alert fired. -/
def addToCart (cart : List CartItem) (product : Product) :
    List CartItem × Bool :=
  match cart.find? (fun item => item.id == product.id) with
  | some existing =>
    if existing.quantity < product.stock then
      (cart.map (fun item =>
        if item.id == product.id then
          { item with quantity := item.quantity + 1 }
        else item), false)
    else
      (cart, true)
  | none => (cart ++ [mkCartItem product], false)

/-- `updateQuantity(id, delta)`: per matching line, look the product up in
the catalog; reject the new quantity when it exceeds the stock or drops
below 1, otherwise store it. -/
def updateQuantity (products : List Product) (cart : List CartItem)
    (id : String) (delta : ℤ) : List CartItem :=
  cart.map fun item =>
    if item.id == id then
      match products.find? (fun p => p.id == id) with
      | none => item
      | some product =>
        let newQty := item.quantity + delta
        if newQty > product.stock then item
        else if newQty < 1 then item
        else { item with quantity := newQty }
    else item

/-- The alert raised inside the `updateQuantityExact` map callback: it fires
when some line matches the id, the catalog has the product, and the typed
quantity exceeds that product's stock. -/
def stockAlertExact (products : List Product) (cart : List CartItem)
    (id : String) (qty : ℤ) : Bool :=
  cart.any fun item =>
    item.id == id &&
      match products.find? (fun p => p.id == id) with
      | some product => decide (qty > product.stock)
      | none => false

/-- `updateQuantityExact(id, value)`: `parseInt` of the field text is the
`Option ℤ` argument; `NaN` returns with no change.  A parsed quantity above
the stock is clamped to the stock (with the max-stock alert); one below 1 is
clamped to 1; otherwise it is stored as typed.  Returns the new cart and
whether the alert fired. -/
def updateQuantityExact (products : List Product) (cart : List CartItem)
    (id : String) (value : Option ℤ) : List CartItem × Bool :=
  match value with
  | none => (cart, false)
  | some qty =>
    (cart.map fun item =>
      if item.id == id then
        match products.find? (fun p => p.id == id) with
        | none => item
        | some product =>
          if qty > product.stock then { item with quantity := product.stock }
          else if qty < 1 then { item with quantity := 1 }
          else { item with quantity := qty }
      else item,
     stockAlertExact products cart id qty)

/-- `updateDiscount(id, discount)`: clamp the argument into `[0, 100]`
(`Math.min(100, Math.max(0, discount))`) and store it on every matching
line. -/
def updateDiscount (cart : List CartItem) (id : String) (discount : ℚ) :
    List CartItem :=
  let validDiscount := min 100 (max 0 discount)
  cart.map fun item =>
    if item.id == id then { item with discount := validDiscount } else item

/-- `removeFromCart(id)`: drop every line with the given id. -/
def removeFromCart (cart : List CartItem) (id : String) : List CartItem :=
  cart.filter fun item => item.id != id

/-- `getDiscountedPrice(item) = item.price * (1 - discount / 100)` where
`discount = item.discount || 0`; the `|| 0` guard is the identity once the
field is materialised (it only replaces `undefined`/`NaN`/`0` by `0`). -/
def getDiscountedPrice (item : CartItem) : ℚ :=
  item.price * (1 - item.discount / 100)

/-- `itemsTotal = cart.reduce((acc, item) => acc + getDiscountedPrice(item) * item.quantity, 0)`. -/
def itemsTotal (cart : List CartItem) : ℚ :=
  cart.foldl (fun acc item => acc + getDiscountedPrice item * (item.quantity : ℚ)) 0

/-- Content of one of the two numeric fee fields (`clinicFees.consultation`,
`clinicFees.procedures`): the empty string, a non-numeric string, or a
string parsing to the rational `q`. -/
inductive FeeInput where
  | empty : FeeInput
  | invalid : FeeInput
  | num (q : ℚ) : FeeInput
  deriving DecidableEq

/-- `Number(s) || 0`: the empty string gives `Number('') = 0`, a non-numeric
string gives `NaN`, and `NaN || 0 = 0`; a numeric string gives its value
(with `0 || 0 = 0`). -/
def FeeInput.toFee : FeeInput → ℚ
  | .empty => 0
  | .invalid => 0
  | .num q => q

/-- The `clinicFees` state object. -/
structure ClinicFees where
  consultation : FeeInput
  procedures : FeeInput
  deriving DecidableEq

/-- `consultationFee = Number(clinicFees.consultation) || 0`. -/
def consultationFee (fees : ClinicFees) : ℚ := fees.consultation.toFee

/-- `procedureCharges = Number(clinicFees.procedures) || 0`. -/
def procedureCharges (fees : ClinicFees) : ℚ := fees.procedures.toFee

/-- `finalTotal = itemsTotal + consultationFee + procedureCharges`. -/
def finalTotal (cart : List CartItem) (fees : ClinicFees) : ℚ :=
  itemsTotal cart + consultationFee fees + procedureCharges fees

/-- The `customerData` state object. -/
structure CustomerData where
  name : String
  age : String
  contact : String
  diagnosis : String
  deriving DecidableEq

/-- The POS component state relevant to the modelled behaviour (`searchTerm`
and `activeTab` only drive rendering and are omitted). -/
structure POSState where
  cart : List CartItem
  clinicFees : ClinicFees
  customerData : CustomerData
  isSuccess : Bool
  loading : Bool
  deriving DecidableEq

/-- Fee fields as initialised and as reset after checkout: both strings
empty. -/
def emptyClinicFees : ClinicFees := ⟨FeeInput.empty, FeeInput.empty⟩

/-- Customer fields as initialised and as reset after checkout. -/
def emptyCustomerData : CustomerData := ⟨"", "", "", ""⟩

/-- Initial POS component state. -/
def initPOS : POSState :=
  { cart := [], clinicFees := emptyClinicFees,
    customerData := emptyCustomerData, isSuccess := false, loading := false }

/-- The final total the component computes from its current state. -/
def stateFinalTotal (st : POSState) : ℚ := finalTotal st.cart st.clinicFees

/-- Outcome of one `handleCheckout` run: which external calls were made,
which messages were emitted, and the state once the handler (including its
`finally`) has finished. -/
structure CheckoutResult where
  persistCalled : Bool
  pdfCalled : Bool
  pdfErrorLogged : Bool
  txFailedAlert : Bool
  state : POSState
  deriving DecidableEq

/-- `handleCheckout`: the guard `cart.length === 0 && finalTotal === 0`
returns immediately; otherwise `onCompleteSale` is awaited — on rejection
the `'Transaction Failed!'` alert fires and only `loading` is reset; on
success `generatePDF` is attempted (a throw is only logged), then the cart,
fee and customer state are cleared and the success flag raised.  The two
Boolean parameters are the outcomes of the persistence call and of the PDF
generation. -/
def handleCheckout (st : POSState) (persistOk pdfOk : Bool) : CheckoutResult :=
  if st.cart.length = 0 ∧ finalTotal st.cart st.clinicFees = 0 then
    { persistCalled := false, pdfCalled := false, pdfErrorLogged := false,
      txFailedAlert := false, state := st }
  else if persistOk then
    { persistCalled := true, pdfCalled := true, pdfErrorLogged := !pdfOk,
      txFailedAlert := false,
      state := { st with cart := [], clinicFees := emptyClinicFees,
                         customerData := emptyCustomerData,
                         isSuccess := true, loading := false } }
  else
    { persistCalled := true, pdfCalled := false, pdfErrorLogged := false,
      txFailedAlert := true, state := { st with loading := false } }

/-- One user action on the POS screen. -/
inductive POSAction where
  | add (p : Product)
  | adjustQty (id : String) (delta : ℤ)
  | setQtyExact (id : String) (value : Option ℤ)
  | setDiscount (id : String) (d : ℚ)
  | remove (id : String)
  | setConsultation (f : FeeInput)
  | setProcedures (f : FeeInput)

/-- Effect of one action on the component state. -/
def applyAction (products : List Product) (st : POSState) :
    POSAction → POSState
  | .add p => { st with cart := (addToCart st.cart p).1 }
  | .adjustQty id delta =>
      { st with cart := updateQuantity products st.cart id delta }
  | .setQtyExact id v =>
      { st with cart := (updateQuantityExact products st.cart id v).1 }
  | .setDiscount id d => { st with cart := updateDiscount st.cart id d }
  | .remove id => { st with cart := removeFromCart st.cart id }
  | .setConsultation f =>
      { st with clinicFees := { st.clinicFees with consultation := f } }
  | .setProcedures f =>
      { st with clinicFees := { st.clinicFees with procedures := f } }

/-- Effect of an action sequence, first action first. -/
def applyActions (products : List Product) (st : POSState)
    (acts : List POSAction) : POSState :=
  acts.foldl (applyAction products) st

/-- A sequence of `updateDiscount` edits on a cart. -/
def applyDiscountEdits (cart : List CartItem) (edits : List (String × ℚ)) :
    List CartItem :=
  edits.foldl (fun c e => updateDiscount c e.1 e.2) cart

/-- Sale line as built by `handleCompleteSale` in `App.tsx` and consumed by
`createSale` in `src/services/storageService.ts` (`SaleItem` in
`src/types.ts`). -/
structure SaleItem where
  productId : String
  productName : String
  quantity : ℤ
  priceAtSale : ℚ
  subtotal : ℚ
  deriving DecidableEq

/-- The `products` table rows touched by the `createSale` stock loop:
`(id, stock)` pairs. -/
abbrev StockTable := List (String × ℤ)

/-- `select('stock').eq('id', id).single()`: the stock of the first row with
the given id, if any. -/
def lookupStock (table : StockTable) (id : String) : Option ℤ :=
  (List.find? (fun r => r.1 == id) table).map Prod.snd

/-- `update({ stock: s }).eq('id', id)`: overwrite the stock of every row
with the given id. -/
def setStock (table : StockTable) (id : String) (s : ℤ) : StockTable :=
  List.map (fun r => if r.1 == id then (r.1, s) else r) table

/-- One iteration of the `createSale` stock loop: read the current stock of
`item.productId`; if the row exists, overwrite it with
`currentStock - item.quantity`; if not (`FEE-...` pseudo-items), do
nothing. -/
def applySaleItem (table : StockTable) (item : SaleItem) : StockTable :=
  match lookupStock table item.productId with
  | some currentStock =>
      setStock table item.productId (currentStock - item.quantity)
  | none => table

/-- The whole `createSale` stock loop, items processed in order. -/
def createSaleStock (table : StockTable) (items : List SaleItem) : StockTable :=
  items.foldl applySaleItem table

/-- Sample catalog product used in concrete checks. -/
def sampleProduct : Product :=
  { id := "p1", name := "Paracetamol", price := 10, costPrice := 4, stock := 5 }

/-- Sample cart line: `sampleProduct` in the cart with quantity 3 and no
discount. -/
def sampleItem : CartItem :=
  { id := "p1", name := "Paracetamol", price := 10, costPrice := 4, stock := 5,
    quantity := 3, discount := 0, isService := false }

/-- Sample POS state holding one cart line. -/
def samplePOS : POSState :=
  { cart := [sampleItem], clinicFees := emptyClinicFees,
    customerData := emptyCustomerData, isSuccess := false, loading := false }

/-- The bounds every cart line produced by the POS operations satisfies
when catalog prices and stocks are non-negative. -/
def GoodItem (i : CartItem) : Prop :=
  0 ≤ i.price ∧ 0 ≤ i.discount ∧ i.discount ≤ 100 ∧ 0 ≤ i.quantity

/-- State invariant for the reachability argument: every cart line is in
bounds and both fee inputs evaluate non-negative. -/
def GoodState (st : POSState) : Prop :=
  (∀ i ∈ st.cart, GoodItem i) ∧
  0 ≤ st.clinicFees.consultation.toFee ∧
  0 ≤ st.clinicFees.procedures.toFee

/-- Side condition on an action: the added product carries a non-negative
price and a typed fee text is empty, non-numeric, or parses to a
non-negative number. -/
def actionOk : POSAction → Prop
  | .add p => 0 ≤ p.price
  | .setConsultation f => 0 ≤ f.toFee
  | .setProcedures f => 0 ≤ f.toFee
  | _ => True

/- ------------------------------------------------------------------ -/
/- Theorems                                                           -/
/- ------------------------------------------------------------------ -/

theorem foldl_add_eq_sum {α : Type} (f : α → ℚ) (l : List α) (a : ℚ) :
    l.foldl (fun acc x => acc + f x) a = a + (l.map f).sum := by
  induction l generalizing a with
  | nil => simp
  | cons x xs ih => simp [List.foldl_cons, ih, add_assoc]

theorem itemsTotal_eq_sum (cart : List CartItem) :
    itemsTotal cart =
      (cart.map (fun item => getDiscountedPrice item * (item.quantity : ℚ))).sum := by
  simpa using
    foldl_add_eq_sum (fun item => getDiscountedPrice item * (item.quantity : ℚ)) cart 0

/-- C1: for every cart state and every pair of clinic fee inputs, the final
total equals the sum over all cart lines of
`unitPrice * (1 - discountPercent/100) * quantity` plus the consultation fee
and the procedure charges, where an absent (empty) or non-numeric fee input
contributes 0. -/
theorem finalTotal_eq_spec_sum (cart : List CartItem) (fees : ClinicFees) :
    finalTotal cart fees =
      (cart.map (fun item =>
        item.price * (1 - item.discount / 100) * (item.quantity : ℚ))).sum
        + fees.consultation.toFee + fees.procedures.toFee ∧
    FeeInput.empty.toFee = 0 ∧ FeeInput.invalid.toFee = 0 := by
  refine ⟨?_, rfl, rfl⟩
  rw [finalTotal, itemsTotal_eq_sum]
  rfl

/-- C2: a checkout attempted while the cart is empty and the final total is
zero is rejected up front: neither the persistence call nor document
generation is invoked and the POS state is unchanged. -/
theorem checkout_empty_rejected (st : POSState) (persistOk pdfOk : Bool)
    (hcart : st.cart = []) (htot : finalTotal st.cart st.clinicFees = 0) :
    (handleCheckout st persistOk pdfOk).persistCalled = false ∧
    (handleCheckout st persistOk pdfOk).pdfCalled = false ∧
    (handleCheckout st persistOk pdfOk).state = st := by
  have hlen : st.cart.length = 0 := by simp [hcart]
  have h : handleCheckout st persistOk pdfOk =
      { persistCalled := false, pdfCalled := false, pdfErrorLogged := false,
        txFailedAlert := false, state := st } := by
    unfold handleCheckout
    rw [if_pos (And.intro hlen htot)]
  rw [h]
  exact ⟨rfl, rfl, rfl⟩

theorem checkout_empty_rejected_witness :
    (handleCheckout initPOS true true).persistCalled = false ∧
    (handleCheckout initPOS true true).pdfCalled = false ∧
    (handleCheckout initPOS true true).state = initPOS :=
  checkout_empty_rejected initPOS true true rfl (by
    norm_num [finalTotal, itemsTotal, consultationFee, procedureCharges,
      emptyClinicFees, initPOS, FeeInput.toFee])

/-- C3: if the persistence call made during checkout fails, the cart lines,
the clinic fee inputs and the customer/patient fields are all left
unchanged, the failure alert is surfaced, and document generation is not
attempted. -/
theorem checkout_persist_failure_preserves_state (st : POSState) (pdfOk : Bool)
    (hne : ¬(st.cart.length = 0 ∧ finalTotal st.cart st.clinicFees = 0)) :
    (handleCheckout st false pdfOk).persistCalled = true ∧
    (handleCheckout st false pdfOk).pdfCalled = false ∧
    (handleCheckout st false pdfOk).txFailedAlert = true ∧
    (handleCheckout st false pdfOk).state.cart = st.cart ∧
    (handleCheckout st false pdfOk).state.clinicFees = st.clinicFees ∧
    (handleCheckout st false pdfOk).state.customerData = st.customerData := by
  have h : handleCheckout st false pdfOk =
      { persistCalled := true, pdfCalled := false, pdfErrorLogged := false,
        txFailedAlert := true, state := { st with loading := false } } := by
    unfold handleCheckout
    rw [if_neg hne]
    rfl
  rw [h]
  exact ⟨rfl, rfl, rfl, rfl, rfl, rfl⟩

theorem checkout_persist_failure_witness :
    (handleCheckout samplePOS false true).persistCalled = true ∧
    (handleCheckout samplePOS false true).pdfCalled = false ∧
    (handleCheckout samplePOS false true).txFailedAlert = true ∧
    (handleCheckout samplePOS false true).state.cart = samplePOS.cart ∧
    (handleCheckout samplePOS false true).state.clinicFees = samplePOS.clinicFees ∧
    (handleCheckout samplePOS false true).state.customerData = samplePOS.customerData :=
  checkout_persist_failure_preserves_state samplePOS true (by decide)

/-- C4: if the persistence call succeeds but PDF generation throws, the sale
stays recorded (the persistence call was made and no failure alert fires),
the cart, fee inputs and customer fields are cleared, the checkout ends in
the success state, and the document failure is only logged — never reported
as a persistence failure. -/
theorem checkout_pdf_failure_nonfatal (st : POSState)
    (hne : ¬(st.cart.length = 0 ∧ finalTotal st.cart st.clinicFees = 0)) :
    (handleCheckout st true false).persistCalled = true ∧
    (handleCheckout st true false).pdfCalled = true ∧
    (handleCheckout st true false).txFailedAlert = false ∧
    (handleCheckout st true false).pdfErrorLogged = true ∧
    (handleCheckout st true false).state.cart = [] ∧
    (handleCheckout st true false).state.clinicFees = emptyClinicFees ∧
    (handleCheckout st true false).state.customerData = emptyCustomerData ∧
    (handleCheckout st true false).state.isSuccess = true := by
  have h : handleCheckout st true false =
      { persistCalled := true, pdfCalled := true, pdfErrorLogged := true,
        txFailedAlert := false,
        state := { st with cart := [], clinicFees := emptyClinicFees,
                           customerData := emptyCustomerData,
                           isSuccess := true, loading := false } } := by
    unfold handleCheckout
    rw [if_neg hne]
    rfl
  rw [h]
  exact ⟨rfl, rfl, rfl, rfl, rfl, rfl, rfl, rfl⟩

theorem checkout_pdf_failure_witness :
    (handleCheckout samplePOS true false).persistCalled = true ∧
    (handleCheckout samplePOS true false).pdfCalled = true ∧
    (handleCheckout samplePOS true false).txFailedAlert = false ∧
    (handleCheckout samplePOS true false).pdfErrorLogged = true ∧
    (handleCheckout samplePOS true false).state.cart = [] ∧
    (handleCheckout samplePOS true false).state.clinicFees = emptyClinicFees ∧
    (handleCheckout samplePOS true false).state.customerData = emptyCustomerData ∧
    (handleCheckout samplePOS true false).state.isSuccess = true :=
  checkout_pdf_failure_nonfatal samplePOS (by decide)

theorem validDiscount_bounds (d : ℚ) :
    0 ≤ min 100 (max 0 d) ∧ min 100 (max 0 d) ≤ 100 :=
  ⟨le_min (by norm_num) (le_max_left 0 d), min_le_left _ _⟩

theorem discountedPrice_nonneg {i : CartItem} (hp : 0 ≤ i.price)
    (hd : i.discount ≤ 100) : 0 ≤ getDiscountedPrice i := by
  have h1 : i.discount / 100 ≤ 1 := by
    rw [div_le_one (by norm_num : (0 : ℚ) < 100)]
    exact hd
  exact mul_nonneg hp (by linarith)

theorem mem_updateDiscount {cart : List CartItem} {id : String} {d : ℚ}
    {i : CartItem} (h : i ∈ updateDiscount cart id d) :
    ∃ j ∈ cart, i = j ∨ i = { j with discount := min 100 (max 0 d) } := by
  simp only [updateDiscount, List.mem_map] at h
  obtain ⟨j, hj, hji⟩ := h
  refine ⟨j, hj, ?_⟩
  by_cases hc : (j.id == id) = true
  · right
    rw [← hji, if_pos hc]
  · left
    rw [← hji, if_neg hc]

theorem applyDiscountEdits_inv (edits : List (String × ℚ)) :
    ∀ cart : List CartItem,
      (∀ i ∈ cart, (0 ≤ i.discount ∧ i.discount ≤ 100) ∧ 0 ≤ i.price) →
      ∀ i ∈ applyDiscountEdits cart edits,
        (0 ≤ i.discount ∧ i.discount ≤ 100) ∧ 0 ≤ i.price := by
  induction edits with
  | nil =>
    intro cart h i hi
    exact h i hi
  | cons e es ih =>
    intro cart h
    refine ih (updateDiscount cart e.1 e.2) ?_
    intro i hi
    obtain ⟨j, hj, hcase⟩ := mem_updateDiscount hi
    rcases hcase with h1 | h1 <;> rw [h1]
    · exact h j hj
    · exact ⟨validDiscount_bounds e.2, (h j hj).2⟩

/-- C6: after any sequence of `updateDiscount` calls, with arbitrary rational
arguments including out-of-range ones, every line's discount lies in
`[0, 100]` and its effective unit price is non-negative (for lines that
started within range with non-negative prices, as `addToCart` creates
them). -/
theorem discount_clamped_after_edits (cart : List CartItem)
    (edits : List (String × ℚ))
    (h0 : ∀ i ∈ cart, 0 ≤ i.discount ∧ i.discount ≤ 100)
    (hp : ∀ i ∈ cart, 0 ≤ i.price) :
    ∀ i ∈ applyDiscountEdits cart edits,
      (0 ≤ i.discount ∧ i.discount ≤ 100) ∧ 0 ≤ getDiscountedPrice i := by
  intro i hi
  obtain ⟨hd, hpr⟩ :=
    applyDiscountEdits_inv edits cart (fun j hj => ⟨h0 j hj, hp j hj⟩) i hi
  exact ⟨hd, discountedPrice_nonneg hpr hd.2⟩

theorem discount_clamped_witness :
    (0 ≤ ({ sampleItem with discount := min 100 (max 0 150) } : CartItem).discount ∧
      ({ sampleItem with discount := min 100 (max 0 150) } : CartItem).discount ≤ 100) ∧
    0 ≤ getDiscountedPrice { sampleItem with discount := min 100 (max 0 150) } :=
  discount_clamped_after_edits [sampleItem] [("p1", 150)]
    (by norm_num [sampleItem]) (by norm_num [sampleItem])
    { sampleItem with discount := min 100 (max 0 150) }
    (List.mem_singleton.mpr rfl)

/-- C7 counterexample: on a line with quantity 3 (product in stock), typing
the quantity 0 is NOT rejected with the line unchanged — `updateQuantityExact`
stores quantity 1 instead. -/
theorem setQuantity_below_one_not_rejected :
    (updateQuantityExact [sampleProduct] [sampleItem] "p1" (some 0)).1 ≠
      [sampleItem] ∧
    (updateQuantityExact [sampleProduct] [sampleItem] "p1" (some 0)).1 =
      [{ sampleItem with quantity := 1 }] ∧
    sampleItem.quantity = 3 := by
  refine ⟨?_, rfl, rfl⟩
  intro h
  rw [show (updateQuantityExact [sampleProduct] [sampleItem] "p1" (some 0)).1 =
      [{ sampleItem with quantity := 1 }] from rfl] at h
  simp [sampleItem] at h

/-- C7 (amended): for every cart line and every parsed quantity input,
`updateQuantityExact` clamps into `[1, stock]`: above the product's stock it
stores exactly the stock and signals the max-stock warning; below 1 it
stores 1 (the line is changed to quantity 1, not left unchanged, and is
never removed); in range it stores the typed value.  Non-matching lines are
untouched and the alert fires exactly when some line matches and the input
exceeds the stock. -/
theorem updateQuantityExact_clamps (products : List Product)
    (cart : List CartItem) (id : String) (qty : ℤ) (p : Product)
    (hfind : products.find? (fun q => q.id == id) = some p)
    (hs : 1 ≤ p.stock) :
    (updateQuantityExact products cart id (some qty)).1 =
      cart.map (fun item =>
        if item.id == id then { item with quantity := max 1 (min p.stock qty) }
        else item) ∧
    ((updateQuantityExact products cart id (some qty)).2 = true ↔
      p.stock < qty ∧ ∃ item ∈ cart, item.id = id) := by
  constructor
  · have hfun : ∀ item : CartItem,
        (if item.id == id then
          match products.find? (fun q => q.id == id) with
          | none => item
          | some product =>
            if qty > product.stock then { item with quantity := product.stock }
            else if qty < 1 then { item with quantity := 1 }
            else { item with quantity := qty }
        else item) =
        (if item.id == id then
          { item with quantity := max 1 (min p.stock qty) }
         else item) := by
      intro item
      by_cases hid : (item.id == id) = true
      · simp only [if_pos hid, hfind]
        by_cases h1 : qty > p.stock
        · rw [if_pos h1]
          congr 1
          omega
        · rw [if_neg h1]
          by_cases h2 : qty < 1
          · rw [if_pos h2]
            congr 1
            omega
          · rw [if_neg h2]
            congr 1
            omega
      · rw [if_neg hid, if_neg hid]
    exact congrArg (fun f => List.map f cart) (funext hfun)
  · show stockAlertExact products cart id qty = true ↔ _
    simp only [stockAlertExact, hfind, List.any_eq_true, Bool.and_eq_true,
      beq_iff_eq, decide_eq_true_eq]
    constructor
    · rintro ⟨x, hx, h1, h2⟩
      exact ⟨h2, x, hx, h1⟩
    · rintro ⟨h2, x, hx, h1⟩
      exact ⟨x, hx, h1, h2⟩

theorem updateQuantityExact_clamps_witness :
    (updateQuantityExact [sampleProduct] [sampleItem] "p1" (some 7)).1 =
      [sampleItem].map (fun item =>
        if item.id == "p1" then
          { item with quantity := max 1 (min sampleProduct.stock 7) }
        else item) ∧
    ((updateQuantityExact [sampleProduct] [sampleItem] "p1" (some 7)).2 = true ↔
      sampleProduct.stock < 7 ∧ ∃ item ∈ [sampleItem], item.id = "p1") :=
  updateQuantityExact_clamps [sampleProduct] [sampleItem] "p1" 7 sampleProduct
    rfl (by norm_num [sampleProduct])

theorem find?_id_eq_none {cart : List CartItem} {pid : String}
    (h : ∀ i ∈ cart, i.id ≠ pid) :
    cart.find? (fun item => item.id == pid) = none := by
  rw [List.find?_eq_none]
  intro x hx
  simpa using h x hx

theorem find?_id_append_cons {l₁ l₂ : List CartItem} {ex : CartItem}
    {pid : String} (hex : ex.id = pid) (h₁ : ∀ i ∈ l₁, i.id ≠ pid) :
    (l₁ ++ ex :: l₂).find? (fun item => item.id == pid) = some ex := by
  induction l₁ with
  | nil =>
    simp [List.find?_cons, hex]
  | cons a l ih =>
    have ha : (a.id == pid) = false := by
      simpa using h₁ a (List.mem_cons_self a l)
    rw [List.cons_append, List.find?_cons, ha]
    exact ih (fun i hi => h₁ i (List.mem_cons_of_mem a hi))

theorem map_if_id_of_absent {l : List CartItem} {pid : String}
    (g : CartItem → CartItem) (h : ∀ i ∈ l, i.id ≠ pid) :
    (l.map fun item => if item.id == pid then g item else item) = l := by
  induction l with
  | nil => rfl
  | cons a t ih =>
    have ha : (a.id == pid) = false := by
      simpa using h a (List.mem_cons_self a t)
    rw [List.map_cons, ha]
    simp only [Bool.false_eq_true, if_false]
    rw [ih (fun i hi => h i (List.mem_cons_of_mem a hi))]

/-- C8: `addToCart` with a product already in the cart increments that
line's quantity by 1 when it is below the product's current stock; when the
line is already at the stock it signals the stock warning and leaves the
cart unchanged; with a product not in the cart it appends a new line with
quantity 1 and discount 0, leaving all other lines unchanged. -/
theorem addToCart_spec :
    (∀ (cart : List CartItem) (product : Product),
        (∀ i ∈ cart, i.id ≠ product.id) →
        addToCart cart product = (cart ++ [mkCartItem product], false) ∧
        (mkCartItem product).quantity = 1 ∧ (mkCartItem product).discount = 0)
  ∧ (∀ (l₁ l₂ : List CartItem) (ex : CartItem) (product : Product),
        ex.id = product.id →
        (∀ i ∈ l₁, i.id ≠ product.id) → (∀ i ∈ l₂, i.id ≠ product.id) →
        (ex.quantity < product.stock →
          addToCart (l₁ ++ ex :: l₂) product =
            (l₁ ++ { ex with quantity := ex.quantity + 1 } :: l₂, false)) ∧
        (ex.quantity = product.stock →
          addToCart (l₁ ++ ex :: l₂) product = (l₁ ++ ex :: l₂, true))) := by
  refine ⟨?_, ?_⟩
  · intro cart product h
    rw [addToCart, find?_id_eq_none h]
    exact ⟨rfl, rfl, rfl⟩
  · intro l₁ l₂ ex product hex h₁ h₂
    constructor
    · intro hlt
      rw [addToCart, find?_id_append_cons hex h₁]
      simp only [if_pos hlt]
      rw [List.map_append, List.map_cons]
      rw [map_if_id_of_absent _ h₁, map_if_id_of_absent _ h₂]
      rw [if_pos (by simpa using hex)]
    · intro heq
      rw [addToCart, find?_id_append_cons hex h₁]
      have hnl : ¬ ex.quantity < product.stock := by omega
      simp only [if_neg hnl]

theorem addToCart_spec_witness :
    addToCart ([] ++ sampleItem :: []) sampleProduct =
      ([] ++ { sampleItem with quantity := sampleItem.quantity + 1 } :: [],
        false) :=
  (addToCart_spec.2 [] [] sampleItem sampleProduct rfl (by simp) (by simp)).1
    (by norm_num [sampleItem, sampleProduct])

theorem find?_pair_cons_pos {β : Type} (pid : String) (a : String × β)
    (l : List (String × β)) (h : (a.1 == pid) = true) :
    List.find? (fun r => r.1 == pid) (a :: l) = some a := by
  rw [List.find?_cons]
  simp [h]

theorem find?_pair_cons_neg {β : Type} (pid : String) (a : String × β)
    (l : List (String × β)) (h : (a.1 == pid) = false) :
    List.find? (fun r => r.1 == pid) (a :: l) =
      List.find? (fun r => r.1 == pid) l := by
  rw [List.find?_cons]
  simp [h]

theorem lookup_setStock_self {table : StockTable} {id : String} {s : ℤ}
    (h : lookupStock table id = some s) (v : ℤ) :
    lookupStock (setStock table id v) id = some v := by
  induction table with
  | nil => simp [lookupStock] at h
  | cons r t ih =>
    by_cases hr : (r.1 == id) = true
    · rw [setStock, List.map_cons, if_pos hr, lookupStock,
        find?_pair_cons_pos id (r.1, v) _ hr]
      rfl
    · have hrf : (r.1 == id) = false := by simpa using hr
      have hh : lookupStock t id = some s := by
        rw [lookupStock, find?_pair_cons_neg id r t hrf] at h
        exact h
      rw [setStock, List.map_cons, if_neg hr, lookupStock,
        find?_pair_cons_neg id r _ hrf]
      exact ih hh

theorem lookup_setStock_other (table : StockTable) (id pid : String) (v : ℤ)
    (h : pid ≠ id) :
    lookupStock (setStock table id v) pid = lookupStock table pid := by
  induction table with
  | nil => rfl
  | cons r t ih =>
    by_cases hr : (r.1 == id) = true
    · have hrp : (r.1 == pid) = false := by
        have hrid : r.1 = id := by simpa using hr
        rw [hrid]
        simpa using Ne.symm h
      rw [setStock, List.map_cons, if_pos hr, lookupStock, lookupStock,
        find?_pair_cons_neg pid (r.1, v) _ hrp, find?_pair_cons_neg pid r t hrp]
      exact ih
    · by_cases hrp : (r.1 == pid) = true
      · rw [setStock, List.map_cons, if_neg hr, lookupStock, lookupStock,
          find?_pair_cons_pos pid r _ hrp, find?_pair_cons_pos pid r t hrp]
      · have hrpf : (r.1 == pid) = false := by simpa using hrp
        rw [setStock, List.map_cons, if_neg hr, lookupStock, lookupStock,
          find?_pair_cons_neg pid r _ hrpf, find?_pair_cons_neg pid r t hrpf]
        exact ih

/-- C10: the `createSale` stock loop processes the sale's items in order;
for an item whose product id has a row in the products table, that row's
stock is overwritten with the stock read at that moment minus the item's
quantity (no other row is touched, and there is no lower bound — the
concrete run ends at stock -3); for an item whose product id has no row
(such as the FEE-CONSULTATION pseudo-item), nothing is updated. -/
theorem createSale_stock_semantics :
    (∀ (table : StockTable) (item : SaleItem) (rest : List SaleItem),
        createSaleStock table (item :: rest) =
          createSaleStock (applySaleItem table item) rest)
  ∧ (∀ (table : StockTable) (item : SaleItem) (s : ℤ),
        lookupStock table item.productId = some s →
        lookupStock (applySaleItem table item) item.productId =
          some (s - item.quantity) ∧
        ∀ pid, pid ≠ item.productId →
          lookupStock (applySaleItem table item) pid = lookupStock table pid)
  ∧ (∀ (table : StockTable) (item : SaleItem),
        lookupStock table item.productId = none →
        applySaleItem table item = table)
  ∧ createSaleStock [("p1", (2 : ℤ))]
      [⟨"FEE-CONSULTATION", "Consultation Fee", 1, 20, 20⟩,
       ⟨"p1", "Paracetamol", 5, 10, 50⟩] = [("p1", (-3 : ℤ))] := by
  refine ⟨fun table item rest => rfl, ?_, ?_, rfl⟩
  · intro table item s h
    constructor
    · rw [applySaleItem, h]
      exact lookup_setStock_self h (s - item.quantity)
    · intro pid hpid
      rw [applySaleItem, h]
      exact lookup_setStock_other table item.productId pid (s - item.quantity) hpid
  · intro table item h
    rw [applySaleItem, h]

theorem createSale_stock_semantics_witness :
    lookupStock
        (applySaleItem [("p1", (2 : ℤ))] ⟨"p1", "Paracetamol", 5, 10, 50⟩)
        "p1" =
      some ((2 : ℤ) - 5) :=
  (createSale_stock_semantics.2.1 [("p1", (2 : ℤ))]
    ⟨"p1", "Paracetamol", 5, 10, 50⟩ 2 rfl).1

/-- C5 counterexample: the fee fields are not clamped, so typing a string
that parses to -5 into the consultation fee field reaches a POS state whose
final total is negative. -/
theorem finalTotal_negative_reachable :
    stateFinalTotal
        (applyActions [] initPOS
          [POSAction.setConsultation (FeeInput.num (-5))]) < 0 := by
  norm_num [stateFinalTotal, applyActions, applyAction, List.foldl_cons,
    List.foldl_nil, initPOS, finalTotal, itemsTotal, consultationFee,
    procedureCharges, FeeInput.toFee, emptyClinicFees]

theorem mem_map_ite {cart : List CartItem} {c : CartItem → Bool}
    {g : CartItem → CartItem} {i : CartItem}
    (hi : i ∈ cart.map (fun item => if c item then g item else item)) :
    ∃ j ∈ cart, i = j ∨ i = g j := by
  simp only [List.mem_map] at hi
  obtain ⟨j, hj, hji⟩ := hi
  refine ⟨j, hj, ?_⟩
  by_cases hc : c j = true
  · right
    rw [← hji, if_pos hc]
  · left
    rw [← hji, if_neg hc]

theorem goodCart_addToCart {cart : List CartItem} {p : Product}
    (h : ∀ i ∈ cart, GoodItem i) (hp : 0 ≤ p.price) :
    ∀ i ∈ (addToCart cart p).1, GoodItem i := by
  intro i hi
  rw [addToCart] at hi
  cases hfind : cart.find? (fun item => item.id == p.id) with
  | some ex =>
    simp only [hfind] at hi
    by_cases hlt : ex.quantity < p.stock
    · rw [if_pos hlt] at hi
      obtain ⟨j, hj, hcase⟩ := mem_map_ite hi
      have hgj := h j hj
      rcases hcase with h1 | h1 <;> rw [h1]
      · exact hgj
      · refine ⟨hgj.1, hgj.2.1, hgj.2.2.1, ?_⟩
        have hq := hgj.2.2.2
        show (0 : ℤ) ≤ j.quantity + 1
        omega
    · rw [if_neg hlt] at hi
      exact h i hi
  | none =>
    simp only [hfind] at hi
    rcases List.mem_append.mp hi with hin | hnew
    · exact h i hin
    · rw [List.mem_singleton.mp hnew]
      exact ⟨hp, le_refl 0, by norm_num [mkCartItem], by norm_num [mkCartItem]⟩

theorem goodCart_updateQuantity {products : List Product}
    {cart : List CartItem} {id : String} {delta : ℤ}
    (h : ∀ i ∈ cart, GoodItem i) :
    ∀ i ∈ updateQuantity products cart id delta, GoodItem i := by
  intro i hi
  rw [updateQuantity] at hi
  obtain ⟨j, hj, hcase⟩ := mem_map_ite hi
  have hgj := h j hj
  rcases hcase with h1 | h1 <;> rw [h1]
  · exact hgj
  · cases products.find? (fun p => p.id == id) with
    | none => exact hgj
    | some product =>
      by_cases ha : j.quantity + delta > product.stock
      · simp only [if_pos ha]
        exact hgj
      · simp only [if_neg ha]
        by_cases hb : j.quantity + delta < 1
        · simp only [if_pos hb]
          exact hgj
        · simp only [if_neg hb]
          refine ⟨hgj.1, hgj.2.1, hgj.2.2.1, ?_⟩
          show (0 : ℤ) ≤ j.quantity + delta
          omega

theorem goodCart_updateQuantityExact {products : List Product}
    {cart : List CartItem} {id : String} {value : Option ℤ}
    (hps : ∀ p ∈ products, 0 ≤ p.stock)
    (h : ∀ i ∈ cart, GoodItem i) :
    ∀ i ∈ (updateQuantityExact products cart id value).1, GoodItem i := by
  intro i hi
  cases value with
  | none => exact h i hi
  | some qty =>
    rw [updateQuantityExact] at hi
    obtain ⟨j, hj, hcase⟩ := mem_map_ite hi
    have hgj := h j hj
    rcases hcase with h1 | h1 <;> rw [h1]
    · exact hgj
    · cases hfind : products.find? (fun p => p.id == id) with
      | none => exact hgj
      | some product =>
        have hstock : 0 ≤ product.stock :=
          hps product (List.mem_of_find?_eq_some hfind)
        by_cases ha : qty > product.stock
        · simp only [if_pos ha]
          exact ⟨hgj.1, hgj.2.1, hgj.2.2.1, hstock⟩
        · simp only [if_neg ha]
          by_cases hb : qty < 1
          · simp only [if_pos hb]
            exact ⟨hgj.1, hgj.2.1, hgj.2.2.1, by norm_num⟩
          · simp only [if_neg hb]
            refine ⟨hgj.1, hgj.2.1, hgj.2.2.1, ?_⟩
            show (0 : ℤ) ≤ qty
            omega

theorem goodCart_updateDiscount {cart : List CartItem} {id : String} {d : ℚ}
    (h : ∀ i ∈ cart, GoodItem i) :
    ∀ i ∈ updateDiscount cart id d, GoodItem i := by
  intro i hi
  obtain ⟨j, hj, hcase⟩ := mem_updateDiscount hi
  have hgj := h j hj
  rcases hcase with h1 | h1 <;> rw [h1]
  · exact hgj
  · exact ⟨hgj.1, (validDiscount_bounds d).1, (validDiscount_bounds d).2,
      hgj.2.2.2⟩

theorem goodCart_removeFromCart {cart : List CartItem} {id : String}
    (h : ∀ i ∈ cart, GoodItem i) :
    ∀ i ∈ removeFromCart cart id, GoodItem i := by
  intro i hi
  exact h i (List.mem_of_mem_filter hi)

theorem goodState_applyActions {products : List Product}
    (hps : ∀ p ∈ products, 0 ≤ p.stock) (acts : List POSAction) :
    ∀ st : POSState, GoodState st → (∀ a ∈ acts, actionOk a) →
      GoodState (applyActions products st acts) := by
  induction acts with
  | nil =>
    intro st h _
    exact h
  | cons a as ih =>
    intro st h ha
    refine ih (applyAction products st a) ?_
      (fun b hb => ha b (List.mem_cons_of_mem _ hb))
    have hak := ha a (List.mem_cons_self a as)
    cases a with
    | add p => exact ⟨goodCart_addToCart h.1 hak, h.2.1, h.2.2⟩
    | adjustQty id delta => exact ⟨goodCart_updateQuantity h.1, h.2.1, h.2.2⟩
    | setQtyExact id v =>
      exact ⟨goodCart_updateQuantityExact hps h.1, h.2.1, h.2.2⟩
    | setDiscount id d => exact ⟨goodCart_updateDiscount h.1, h.2.1, h.2.2⟩
    | remove id => exact ⟨goodCart_removeFromCart h.1, h.2.1, h.2.2⟩
    | setConsultation f => exact ⟨h.1, hak, h.2.2⟩
    | setProcedures f => exact ⟨h.1, h.2.1, hak⟩

theorem finalTotal_nonneg_of_goodState {st : POSState} (h : GoodState st) :
    0 ≤ stateFinalTotal st := by
  have hitems : 0 ≤ itemsTotal st.cart := by
    rw [itemsTotal_eq_sum]
    apply List.sum_nonneg
    intro x hx
    simp only [List.mem_map] at hx
    obtain ⟨i, hi, hxi⟩ := hx
    rw [← hxi]
    have hg := h.1 i hi
    exact mul_nonneg (discountedPrice_nonneg hg.1 hg.2.2.1)
      (by exact_mod_cast hg.2.2.2)
  have hc := h.2.1
  have hp := h.2.2
  rw [stateFinalTotal, finalTotal, consultationFee, procedureCharges]
  linarith

/-- C5 (amended): the final total is non-negative in every POS state
reachable from the initial state by `addToCart`, quantity edits, discount
edits and fee-field inputs, PROVIDED every catalog stock is non-negative,
every added product has a non-negative price, and every typed fee text is
empty, non-numeric, or parses to a non-negative number.  Without the last
proviso the claim fails: the code does not clamp the fee fields, so text
parsing to a negative number produces a negative total. -/
theorem finalTotal_nonneg_reachable (products : List Product)
    (hps : ∀ p ∈ products, 0 ≤ p.stock) (acts : List POSAction)
    (ha : ∀ a ∈ acts, actionOk a) :
    0 ≤ stateFinalTotal (applyActions products initPOS acts) := by
  apply finalTotal_nonneg_of_goodState
  apply goodState_applyActions hps acts initPOS ?_ ha
  exact ⟨by simp [initPOS], by norm_num [initPOS, emptyClinicFees, FeeInput.toFee],
    by norm_num [initPOS, emptyClinicFees, FeeInput.toFee]⟩

theorem finalTotal_nonneg_reachable_witness :
    0 ≤ stateFinalTotal
        (applyActions [] initPOS [POSAction.setConsultation (FeeInput.num 3)]) :=
  finalTotal_nonneg_reachable [] (by simp)
    [POSAction.setConsultation (FeeInput.num 3)]
    (by
      intro a ha
      rw [List.mem_singleton.mp ha]
      norm_num [actionOk, FeeInput.toFee])
